import Mathlib

/-!
Shallow embedding of the request-validation core of the `twiml` Go package
(`request.go` plus its validator file): canonical-message construction,
signature gate, per-field validation dispatch, endpoint (phone / SIP URI)
classification.

External libraries used by the source are modelled as parameters:
* `libphonenumber` (Parse / IsValidNumber / Format E164) as a `PhoneAPI`
  record of abstract functions;
* Go `net/url.Parse` (plus `URL.Hostname`, `Userinfo.String`,
  `Userinfo.Username`) as a function `String → Option GoURL`;
* `base64.StdEncoding.EncodeToString ∘ HMAC-SHA1` as an abstract
  `mac : String → String → String`.

Go string primitives (`strings.ToLower`, `strings.Split`, `strings.Join`,
`strings.HasPrefix`, `sort.Strings`) are re-implemented on `List Char`
so that every definition evaluates inside the kernel.  Go compares and
sorts strings byte-wise over UTF-8; on valid UTF-8 that order coincides
with code-point order, which is the order implemented here.
-/

namespace Twiml

/-- Boolean test that the first list is an initial segment of the second
(model of Go `strings.HasPrefix` on the underlying characters). -/
def listIsPref : List Char → List Char → Bool
  | [], _ => true
  | _ :: _, [] => false
  | a :: as, b :: bs => a = b && listIsPref as bs

/-- Model of Go `strings.HasPrefix s pre`. -/
def strStarts (s pre : String) : Bool := listIsPref pre.data s.data

/-- Model of Go `strings.ToLower` (character-wise lowering; the inputs the
source lowers are ASCII, where Go and Unicode lowering agree). -/
def strToLower (s : String) : String := ⟨s.data.map Char.toLower⟩

/-- Drop the first `n` characters of a string. -/
def strDrop (s : String) (n : Nat) : String := ⟨s.data.drop n⟩

/-- Accumulator pass of Go `strings.Split` with a one-character separator:
keeps empty segments, and an empty input yields one empty segment. -/
def splitCharAux (sep : Char) : List Char → List Char → List (List Char)
  | [], cur => [cur.reverse]
  | c :: cs, cur =>
    if c = sep then cur.reverse :: splitCharAux sep cs []
    else splitCharAux sep cs (c :: cur)

/-- Model of Go `strings.Split s "."`. -/
def splitDots (s : String) : List String := (splitCharAux '.' s.data []).map String.mk

/-- Character-level interleaving of a separator (model of `strings.Join`). -/
def joinDotsChars : List (List Char) → List Char
  | [] => []
  | [x] => x
  | x :: y :: xs => x ++ '.' :: joinDotsChars (y :: xs)

/-- Model of Go `strings.Join l "."`. -/
def joinDots (l : List String) : String := ⟨joinDotsChars (l.map String.data)⟩

/-- Byte-wise (code-point) string comparison used by Go `sort.Strings`:
`charsLe a b` holds when `a ≤ b` in lexicographic order with shorter
common-prefixed lists first. -/
def charsLe : List Char → List Char → Bool
  | [], _ => true
  | _ :: _, [] => false
  | a :: as, b :: bs => a < b || (a = b && charsLe as bs)

/-- Ascending byte-wise order on strings (the order of Go `sort.Strings`). -/
def goLe (a b : String) : Prop := charsLe a.data b.data = true

instance : DecidableRel goLe := fun a b => by unfold goLe; infer_instance

/-- Model of Go `sort.Strings`: sort ascending in byte-wise order. -/
def sortParams (l : List String) : List String := List.insertionSort goLe l

/-- Interface of the external phone-number capability (`ttacon/libphonenumber`):
`parse` is `Parse(raw, "US")` returning a parsed number or failing,
`isValidNumber` is `IsValidNumber`, `formatE164` is `Format(num, E164)`. -/
structure PhoneAPI (PN : Type) where
  parse : String → Option PN
  isValidNumber : PN → Bool
  formatE164 : PN → String

/-- Embedding of `validatePhoneNumber` (validator file): parse against the
US region and require a valid number, reporting the source's error text. -/
def validatePhoneNumber {PN : Type} (api : PhoneAPI PN) (num : String) : Option String :=
  match api.parse num with
  | none => some "invalid phone number"
  | some n => if api.isValidNumber n then none else some "invalid phone number"

/-- Embedding of `validPhoneNumber` (string case of the `interface{}` switch;
`ValidatePost` and `ParseNumber` always pass a string): an empty value is
allowed only under the `allowempty` option, otherwise it is `Required`. -/
def validPhoneNumber {PN : Type} (api : PhoneAPI PN) (v param : String) : Option String :=
  if v = "" then (if param = "allowempty" then none else some "Required")
  else validatePhoneNumber api v

/-- Output of Go `net/url.Parse` restricted to the components `parseSIPURI`
reads: `scheme` is `URL.Scheme`, `opq` is `URL.Opaque`, `userStr` is
`URL.User.String()`, `username` is `URL.User.Username()`, `host` is
`URL.Host`, `hostname` is `URL.Hostname()`, `path` is `URL.Path`. -/
structure GoURL where
  scheme : String
  opq : String
  userStr : String
  username : String
  host : String
  hostname : String
  path : String
deriving DecidableEq

/-- Scheme-separator rewrite of `parseSIPURI`: turn a leading `sips:` or
`sip:` into `sips://` / `sip://` (the source uses `strings.Replace` with
count 1 under a `strings.HasPrefix` guard, so only the leading occurrence
is rewritten). -/
def sipRewrite (uri : String) : String :=
  if strStarts uri "sips:" then "sips://" ++ strDrop uri 5
  else if strStarts uri "sip:" then "sip://" ++ strDrop uri 4
  else uri

/-- Embedding of `parseSIPURI`, parametrised by the general URI parser
`urlP` (Go `net/url.Parse`).  Lower-case the input, require the `sip`
prefix, rewrite the scheme separator, parse, then reject unless the scheme
is exactly `sip` or `sips`, path and opaque are empty, and host and
user-info are non-empty.  `none` models every error return. -/
def parseSIPURI (urlP : String → Option GoURL) (uri0 : String) : Option GoURL :=
  let uri := strToLower uri0
  if strStarts uri "sip" then
    match urlP (sipRewrite uri) with
    | none => none
    | some u =>
      if u.scheme ≠ "sip" ∧ u.scheme ≠ "sips" then none
      else if u.path ≠ "" ∨ u.opq ≠ "" then none
      else if u.host = "" ∨ u.userStr = "" then none
      else some u
  else none

/-- Embedding of `validSIPURI` (string case): empty value handling as in
`validPhoneNumber`, otherwise succeed exactly when `parseSIPURI` does. -/
def validSIPURI (urlP : String → Option GoURL) (v param : String) : Option String :=
  if v = "" then (if param = "allowempty" then none else some "Required")
  else
    match parseSIPURI urlP v with
    | none => some "invalid SIP URI"
    | some _ => none

/-- Embedding of `validFromOrTo`: accept a valid phone number or a valid
SIP URI, in that order; on double failure return the phone-number error. -/
def validFromOrTo {PN : Type} (api : PhoneAPI PN) (urlP : String → Option GoURL)
    (v param : String) : Option String :=
  match validPhoneNumber api v param with
  | none => none
  | some err =>
    match validSIPURI urlP v param with
    | none => none
    | some _ => some err

/-- Recursive scan of `characterList`: return the source's error message for
the first character not contained in the allowed set.  The source tests
`strings.Contains(charList, string(c))`, which for the one-character needle
used here is exactly character membership. -/
def characterListChars (charList : List Char) : List Char → Option String
  | [] => none
  | c :: rest =>
    if c ∈ charList then characterListChars charList rest
    else some ("invalid: character '" ++ String.singleton c ++ "' is not allowed")

/-- Embedding of `characterList`: check a string against a list of
acceptable characters, scanning left to right. -/
def characterList (s charList : String) : Option String :=
  characterListChars charList.data s.data

/-- Embedding of `validateNumericPoundStar`. -/
def validateNumericPoundStar (v : String) : Option String :=
  characterList v "0123456789#*"

/-- Embedding of `validateKeyPadEntry` (string case). -/
def validateKeyPadEntry (v param : String) : Option String :=
  if v = "" then (if param = "allowempty" then none else some "Required")
  else validateNumericPoundStar v

/-- Embedding of `FormatNumber`: parse with the external capability,
require validity, and return the E.164 formatting; `none` models the
error returns. -/
def FormatNumber {PN : Type} (api : PhoneAPI PN) (number : String) : Option String :=
  match api.parse number with
  | none => none
  | some n => if api.isValidNumber n then some (api.formatE164 n) else none

/-- Embedding of the `ParsedNumber` struct (field names as in the source;
`SIP` is the spec's `isRoutingURI`, `SIPDomain` its `routingDomain`,
`Number` its `normalizedNumber`). -/
structure ParsedNumber where
  Valid : Bool
  Number : String
  SIP : Bool
  SIPDomain : String
  Region : String
  Raw : String
deriving DecidableEq

/-- Embedding of `ParseNumber`: classify a raw string as a phone number or
a Twilio SIP routing URI, never failing. -/
def ParseNumber {PN : Type} (api : PhoneAPI PN) (urlP : String → Option GoURL)
    (v : String) : ParsedNumber :=
  let number : ParsedNumber := ⟨false, v, false, "", "", v⟩
  if validPhoneNumber api v "" = none then { number with Valid := true }
  else
    match parseSIPURI urlP v with
    | none => number
    | some u =>
      let parts := splitDots u.hostname
      let l := parts.length
      if l < 5 ∨ joinDots (parts.drop (l - 2)) ≠ "twilio.com" ∨ parts.getD (l - 4) "" ≠ "sip"
      then number
      else
        match FormatNumber api u.username with
        | none => number
        | some num =>
          { Valid := true, Number := num, SIP := true,
            SIPDomain := joinDots (parts.take (l - 4)),
            Region := parts.getD (l - 4) "", Raw := v }

/-- Lookup of a form field in the decoded form (Go map indexing
`req.r.PostForm[p]`; keys of a Go map are unique). -/
def lookupForm (p : String) : List (String × List String) → Option (List String)
  | [] => none
  | (k, v) :: rest => if k = p then some v else lookupForm p rest

/-- First value of a form field, or the empty string when the key is absent
or has zero values (the source guards `len(req.r.PostForm[p]) > 0`). -/
def firstValue (form : List (String × List String)) (p : String) : String :=
  ((lookupForm p form).getD []).headD ""

/-- Embedding of the canonical-message construction of `ValidatePost`
(lines building `message`): start from the full URL and append, for each
form-field name in ascending byte-wise order, the name then its first
value, with no separators. -/
def canonicalMessage (url : String) (form : List (String × List String)) : String :=
  (sortParams (form.map Prod.fst)).foldl (fun msg p => msg ++ p ++ firstValue form p) url

/-- Errors of `ValidatePost`: wrong method, signature failure (carrying the
computed signature and the header value exactly as the source formats
them into the error), or a failed field validation (field, value, cause). -/
inductive VError where
  | badMethod : String → VError
  | sigMismatch : String → String → VError
  | fieldInvalid : String → String → String → VError
deriving DecidableEq

/-- Message rendering of the wrapped errors of `ValidatePost`, following the
source's format strings. -/
def renderVError : VError → String
  | .badMethod m =>
    "twiml.Request.ValidatePost(): expected a POST request, received " ++ m
  | .sigMismatch sig got =>
    "twiml.Request.ValidatePost(): calculated Signature: " ++ sig ++
      ", failed to match X-Twilio-Signature: " ++ got
  | .fieldInvalid p v c => "Invalid form value: " ++ p ++ "=" ++ v ++ ": " ++ c

/-- Embedding of the `valCfg` struct: a validation function and its option
parameter (Go zero value `""` when the struct literal omits it). -/
structure ValCfg where
  valFunc : String → String → Option String
  valParam : String

/-- Embedding of the `fieldValidators` map: `From` and `To` use
`validFromOrTo`, `Digits` uses `validateKeyPadEntry`, each with the
zero-value option parameter `""`; every other field is unregistered. -/
def fieldValidators {PN : Type} (api : PhoneAPI PN) (urlP : String → Option GoURL)
    (p : String) : Option ValCfg :=
  if p = "From" then some ⟨validFromOrTo api urlP, ""⟩
  else if p = "To" then some ⟨validFromOrTo api urlP, ""⟩
  else if p = "Digits" then some ⟨validateKeyPadEntry, ""⟩
  else none

/-- Incoming request as `ValidatePost` sees it: method, `req.r.URL.String()`
(path plus query), the decoded `PostForm` (unique keys), and the values of
the `X-Twilio-Signature` header. -/
structure GoReq where
  method : String
  urlStr : String
  postForm : List (String × List String)
  sigHeader : List String

/-- Field-validation loop of `ValidatePost` (its final `for` loop): walk the
sorted field names, abort on the first failing registered validator, and
record each surviving field into the `Values` map (modelled as an ordered
association list; `acc` is the map built so far). -/
def runFieldLoop {PN : Type} (api : PhoneAPI PN) (urlP : String → Option GoURL)
    (form : List (String × List String)) :
    List String → List (String × String) → Option VError × List (String × String)
  | [], acc => (none, acc)
  | p :: rest, acc =>
    let val := firstValue form p
    match fieldValidators api urlP p with
    | some cfg =>
      match cfg.valFunc val cfg.valParam with
      | some cause => (some (.fieldInvalid p val cause), acc)
      | none => runFieldLoop api urlP form rest (acc ++ [(p, val)])
    | none => runFieldLoop api urlP form rest (acc ++ [(p, val)])

/-- Embedding of `Request.ValidatePost`: method gate, canonical message,
HMAC signature gate against the `X-Twilio-Signature` header, then the
field-validation loop.  The result pairs the error (if any) with the final
contents of `Request.Values`, which starts empty (`NewRequest`) and which
the caller can read whether or not an error is returned.  Form decoding is
modelled as already done (`ParseForm` errors are transport-level), and the
never-failing `hash.Write` defensive branch is omitted. -/
def validatePost {PN : Type} (api : PhoneAPI PN) (urlP : String → Option GoURL)
    (mac : String → String → String) (host : String) (req : GoReq)
    (authToken : String) : Option VError × List (String × String) :=
  if req.method ≠ "POST" then (some (.badMethod req.method), [])
  else
    let url := host ++ req.urlStr
    let message := canonicalMessage url req.postForm
    let sig := mac authToken message
    if req.sigHeader.length ≠ 1 ∨ sig ≠ req.sigHeader.headD "" then
      (some (.sigMismatch sig (if req.sigHeader.length = 1 then req.sigHeader.headD "" else "")), [])
    else
      runFieldLoop api urlP req.postForm (sortParams (req.postForm.map Prod.fst)) []

/-- Cost model of the signature comparison `sig != xTwilioSigHdr[0]`
(request.go line 186).  Go string equality first compares lengths and then
scans bytes left to right, returning at the first mismatch; `scanSteps`
counts the per-byte comparisons of that scan. -/
def scanSteps : List Char → List Char → Nat
  | a :: as, b :: bs => if a = b then 1 + scanSteps as bs else 1
  | _, _ => 0

/-- Number of byte comparisons performed by the Go string equality of the
signature check: zero scan work when the lengths differ, otherwise an
early-exit left-to-right scan. -/
def goStringCmpSteps (s t : String) : Nat :=
  if s.length = t.length then scanSteps s.data t.data else 0

/-- Length of the longest common initial segment of two character lists. -/
def commonPrefLen : List Char → List Char → Nat
  | a :: as, b :: bs => if a = b then 1 + commonPrefLen as bs else 0
  | _, _ => 0

/-- Initial-segment test used to phrase substring containment. -/
def subAt : List Char → List Char → Bool
  | [], _ => true
  | _ :: _, [] => false
  | a :: as, b :: bs => a = b && subAt as bs

/-- Containment of `needle` as a contiguous substring of `hay`. -/
def hasSub (needle : List Char) : List Char → Bool
  | [] => subAt needle []
  | c :: rest => subAt needle (c :: rest) || hasSub needle rest

/-- String form of `hasSub`. -/
def strContainsB (s pat : String) : Bool := hasSub pat.data s.data

/-- Concrete stand-in for `base64(HMAC-SHA1(key, msg))` used to instantiate
the abstract `mac` parameter in concrete evaluations; the pipeline treats
the digest opaquely, so any injective-on-inputs function exercises it. -/
def macModel (key msg : String) : String := "MAC[" ++ key ++ "|" ++ msg ++ "]"

/-- Concrete instantiation of the phone capability for the fixtures used in
the examples: mirrors `libphonenumber` with region US on the number
8005642365 (accepted, E.164 form +18005642365) and rejects everything
else, in particular every full URI string. -/
def phoneModel : PhoneAPI String where
  parse s := if s = "+18005642365" ∨ s = "8005642365" then some "+18005642365" else none
  isValidNumber _ := true
  formatE164 n := n

/-- Splitting at the first occurrence of a character; `none` when absent. -/
def splitAtFirst (sep : Char) : List Char → Option (List Char × List Char)
  | [] => none
  | c :: cs =>
    if c = sep then some ([], cs)
    else
      match splitAtFirst sep cs with
      | none => none
      | some (x, y) => some (c :: x, y)

/-- Splitting at the last occurrence of a character; `none` when absent. -/
def splitAtLast (sep : Char) (l : List Char) : Option (List Char × List Char) :=
  match splitAtFirst sep l.reverse with
  | none => none
  | some (x, y) => some (y.reverse, x.reverse)

/-- Valid character for the tail of a URI scheme (RFC 3986, as checked by
Go `net/url.getScheme`). -/
def isSchemeTailChar (c : Char) : Bool :=
  c.isAlpha || c.isDigit || c = '+' || c = '-' || c = '.'

/-- Valid URI scheme: a letter followed by scheme-tail characters. -/
def validSchemeChars : List Char → Bool
  | [] => false
  | c :: cs => c.isAlpha && cs.all isSchemeTailChar

/-- Authority-form part of the `net/url.Parse` model: split the remainder
after `scheme://` into authority and path, the authority at its last `@`
into user-info and host, validate a trailing numeric port, and strip it
for `Hostname()`. -/
def urlParseAuthority (scheme : String) (rest : List Char) : Option GoURL :=
  let ap := match splitAtFirst '/' rest with
    | none => (rest, ([] : List Char))
    | some (a, p) => (a, '/' :: p)
  let ui := match splitAtLast '@' ap.1 with
    | none => (([] : List Char), ap.1)
    | some (u, h) => (u, h)
  let uname := match splitAtFirst ':' ui.1 with
    | none => ui.1
    | some (x, _) => x
  match splitAtLast ':' ui.2 with
  | none =>
    some ⟨scheme, "", ⟨ui.1⟩, ⟨uname⟩, ⟨ui.2⟩, ⟨ui.2⟩, ⟨ap.2⟩⟩
  | some (h, prt) =>
    if prt.all Char.isDigit then
      some ⟨scheme, "", ⟨ui.1⟩, ⟨uname⟩, ⟨ui.2⟩, ⟨h⟩, ⟨ap.2⟩⟩
    else none

/-- Concrete model of Go `net/url.Parse` on the inputs this package feeds
it (no query, fragment, percent escapes, or bracketed IPv6 hosts): no
colon means the whole input is a path; a valid scheme followed by `//`
selects the authority form; a valid scheme without `//` makes the
remainder opaque; a colon without a valid scheme in front is an error. -/
def urlParseModel (s : String) : Option GoURL :=
  match splitAtFirst ':' s.data with
  | none => some ⟨"", "", "", "", "", "", s⟩
  | some (sch, rest) =>
    if validSchemeChars sch then
      if listIsPref "//".data rest then urlParseAuthority ⟨sch⟩ (rest.drop 2)
      else some ⟨⟨sch⟩, ⟨rest⟩, "", "", "", "", ""⟩
    else none

/-- Separator-free concatenation of a list of strings. -/
def concatAll : List String → String
  | [] => ""
  | x :: xs => x ++ concatAll xs

/-- Canonical message as the specification words it: the url followed by,
for each field name in ascending byte-wise order, the name concatenated
with its first value, with no separators.  Stated independently of
`canonicalMessage` (which follows the source's accumulation loop) so the
two can be compared. -/
def canonicalMessageSpec (url : String) (form : List (String × List String)) : String :=
  url ++ concatAll ((sortParams (form.map Prod.fst)).map (fun p => p ++ firstValue form p))

/-- Validation outcome of one form field inside the final loop of
`ValidatePost`: the registered validator applied to the field's first
value and its option parameter, or success when the field is
unregistered. -/
def fieldCheck {PN : Type} (api : PhoneAPI PN) (urlP : String → Option GoURL)
    (form : List (String × List String)) (p : String) : Option String :=
  match fieldValidators api urlP p with
  | some cfg => cfg.valFunc (firstValue form p) cfg.valParam
  | none => none

/-- Whether a `validatePost` outcome is the authentication (signature)
failure of the source's header comparison. -/
def isAuthFailure : Option VError × List (String × String) → Bool
  | (some (.sigMismatch _ _), _) => true
  | _ => false

/-! Helper lemmas about the byte-wise string order. -/

theorem charsLe_cons_iff (a b : Char) (as bs : List Char) :
    charsLe (a :: as) (b :: bs) = true ↔ a < b ∨ (a = b ∧ charsLe as bs = true) := by
  simp [charsLe]

theorem charsLe_total : ∀ a b : List Char, charsLe a b = true ∨ charsLe b a = true := by
  intro a
  induction a with
  | nil => intro b; left; rfl
  | cons x xs ih =>
    intro b
    cases b with
    | nil => right; rfl
    | cons y ys =>
      rcases lt_trichotomy x y with h | h | h
      · left; rw [charsLe_cons_iff]; exact Or.inl h
      · rcases ih ys with h2 | h2
        · left; rw [charsLe_cons_iff]; exact Or.inr ⟨h, h2⟩
        · right; rw [charsLe_cons_iff]; exact Or.inr ⟨h.symm, h2⟩
      · right; rw [charsLe_cons_iff]; exact Or.inl h

theorem charsLe_trans : ∀ a b c : List Char,
    charsLe a b = true → charsLe b c = true → charsLe a c = true := by
  intro a
  induction a with
  | nil => intro b c _ _; rfl
  | cons x xs ih =>
    intro b c h1 h2
    cases b with
    | nil => simp [charsLe] at h1
    | cons y ys =>
      cases c with
      | nil => simp [charsLe] at h2
      | cons z zs =>
        rw [charsLe_cons_iff] at h1 h2 ⊢
        rcases h1 with h1 | ⟨h1, h1t⟩
        · rcases h2 with h2 | ⟨h2, _⟩
          · exact Or.inl (lt_trans h1 h2)
          · exact Or.inl (h2 ▸ h1)
        · rcases h2 with h2 | ⟨h2, h2t⟩
          · exact Or.inl (h1 ▸ h2)
          · exact Or.inr ⟨h1.trans h2, ih ys zs h1t h2t⟩

theorem charsLe_antisymm : ∀ a b : List Char,
    charsLe a b = true → charsLe b a = true → a = b := by
  intro a
  induction a with
  | nil =>
    intro b _ h2
    cases b with
    | nil => rfl
    | cons y ys => simp [charsLe] at h2
  | cons x xs ih =>
    intro b h1 h2
    cases b with
    | nil => simp [charsLe] at h1
    | cons y ys =>
      rw [charsLe_cons_iff] at h1 h2
      rcases h1 with h1 | ⟨h1, h1t⟩
      · rcases h2 with h2 | ⟨h2, _⟩
        · exact absurd h2 (lt_asymm h1)
        · exact absurd (h2 ▸ h1) (lt_irrefl y)
      · rcases h2 with h2 | ⟨_, h2t⟩
        · exact absurd (h1 ▸ h2) (lt_irrefl y)
        · rw [h1, ih ys h1t h2t]

instance : IsTotal String goLe := ⟨fun a b => charsLe_total a.data b.data⟩

instance : IsTrans String goLe := ⟨fun a b c => charsLe_trans a.data b.data c.data⟩

instance : IsAntisymm String goLe :=
  ⟨fun a b h1 h2 => String.ext (charsLe_antisymm a.data b.data h1 h2)⟩

theorem sortParams_sorted (l : List String) : List.Sorted goLe (sortParams l) :=
  List.sorted_insertionSort goLe l

theorem sortParams_perm (l : List String) : (sortParams l).Perm l :=
  List.perm_insertionSort goLe l

theorem sortParams_eq_of_perm {l₁ l₂ : List String} (h : l₁.Perm l₂) :
    sortParams l₁ = sortParams l₂ :=
  List.eq_of_perm_of_sorted ((sortParams_perm l₁).trans (h.trans (sortParams_perm l₂).symm))
    (sortParams_sorted l₁) (sortParams_sorted l₂)

/-! Helper lemmas about form lookup and the canonical message. -/

theorem lookupForm_perm {l₁ l₂ : List (String × List String)} (h : l₁.Perm l₂) :
    (l₁.map Prod.fst).Nodup → ∀ p, lookupForm p l₁ = lookupForm p l₂ := by
  induction h with
  | nil => exact fun _ _ => rfl
  | cons x h ih =>
    obtain ⟨k, v⟩ := x
    intro hnd p
    have hnd' : _ := (List.nodup_cons.mp hnd).2
    by_cases hk : k = p
    · simp [lookupForm, hk]
    · simp [lookupForm, hk, ih hnd' p]
  | swap x y l =>
    obtain ⟨k1, v1⟩ := x
    obtain ⟨k2, v2⟩ := y
    intro hnd p
    have hne : k2 ≠ k1 := by
      have := (List.nodup_cons.mp hnd).1
      simp at this
      exact fun he => this.1 he
    by_cases h1 : k1 = p <;> by_cases h2 : k2 = p <;>
      simp [lookupForm, h1, h2]
    exact absurd (h2.trans h1.symm) hne
  | trans h12 h23 ih12 ih23 =>
    intro hnd p
    have hnd2 : _ := (h12.map Prod.fst).nodup hnd
    rw [ih12 hnd p, ih23 hnd2 p]

theorem firstValue_perm {l₁ l₂ : List (String × List String)} (h : l₁.Perm l₂)
    (hnd : (l₁.map Prod.fst).Nodup) (p : String) :
    firstValue l₁ p = firstValue l₂ p := by
  unfold firstValue
  rw [lookupForm_perm h hnd p]

theorem foldl_concatAll (g : String → String) :
    ∀ (names : List String) (init : String),
      names.foldl (fun m p => m ++ p ++ g p) init
        = init ++ concatAll (names.map fun p => p ++ g p) := by
  intro names
  induction names with
  | nil => intro init; simp [concatAll]
  | cons a l ih =>
    intro init
    rw [List.foldl_cons, ih, List.map_cons, concatAll,
      String.append_assoc init, String.append_assoc]

/-- Scan cost of the early-exit equality in terms of the common-prefix
length: for equal-length inputs the scan visits every byte of the common
initial segment plus, on inequality, the first mismatching byte. -/
theorem scanSteps_eq_commonPref : ∀ a b : List Char, a.length = b.length →
    scanSteps a b = commonPrefLen a b + (if a = b then 0 else 1) := by
  intro a
  induction a with
  | nil =>
    intro b h
    cases b with
    | nil => simp [scanSteps, commonPrefLen]
    | cons y ys => simp at h
  | cons x xs ih =>
    intro b h
    cases b with
    | nil => simp at h
    | cons y ys =>
      simp only [List.length_cons, Nat.add_right_cancel_iff] at h
      by_cases hxy : x = y
      · subst hxy
        simp only [scanSteps, commonPrefLen, if_pos rfl, ih ys h, List.cons.injEq, true_and]
        by_cases ht : xs = ys
        · simp [ht]
        · simp [ht]; omega
      · simp [scanSteps, commonPrefLen, hxy]

/-- C4: the canonical message built by `ValidatePost` is invariant under
reordering of the original form fields, and equals the url followed by,
for each field name in ascending byte-wise order (sorted, a permutation
of the field names), the name concatenated with its first value with no
separators. -/
theorem canonicalMessage_perm_invariant (url : String)
    (f1 f2 : List (String × List String))
    (hnd : (f1.map Prod.fst).Nodup) (hperm : f1.Perm f2) :
    canonicalMessage url f1 = canonicalMessage url f2
    ∧ canonicalMessage url f1 = canonicalMessageSpec url f1
    ∧ List.Sorted goLe (sortParams (f1.map Prod.fst))
    ∧ (sortParams (f1.map Prod.fst)).Perm (f1.map Prod.fst) := by
  refine ⟨?_, ?_, sortParams_sorted _, sortParams_perm _⟩
  · unfold canonicalMessage
    have hnames : (f1.map Prod.fst).Perm (f2.map Prod.fst) := hperm.map Prod.fst
    rw [sortParams_eq_of_perm hnames]
    have hfun : (fun (m p : String) => m ++ p ++ firstValue f1 p)
        = (fun m p => m ++ p ++ firstValue f2 p) := by
      funext m p
      rw [firstValue_perm hperm hnd]
    rw [hfun]
  · unfold canonicalMessage canonicalMessageSpec
    exact foldl_concatAll _ _ _

/-- C4 witness: a two-field form and its reordering yield the same
canonical message, and the message matches its sorted-concatenation
description. -/
theorem canonicalMessage_perm_invariant_witness :
    canonicalMessage "https://x/y" [("To", ["+15005550006"]), ("From", ["+18005642365"])]
      = canonicalMessage "https://x/y" [("From", ["+18005642365"]), ("To", ["+15005550006"])]
    ∧ canonicalMessage "https://x/y" [("To", ["+15005550006"]), ("From", ["+18005642365"])]
      = canonicalMessageSpec "https://x/y" [("To", ["+15005550006"]), ("From", ["+18005642365"])]
    ∧ List.Sorted goLe (sortParams (([("To", ["+15005550006"]), ("From", ["+18005642365"])] : List (String × List String)).map Prod.fst))
    ∧ (sortParams (([("To", ["+15005550006"]), ("From", ["+18005642365"])] : List (String × List String)).map Prod.fst)).Perm
        (([("To", ["+15005550006"]), ("From", ["+18005642365"])] : List (String × List String)).map Prod.fst) :=
  canonicalMessage_perm_invariant "https://x/y" _ _ (by decide) (by decide)

/-- C1 counterexample: the signature comparison of request.go line 186 is
Go string equality; under its cost model, two header values of the same
length as the computed digest take visibly different numbers of byte
comparisons (1 versus 27) depending on where the first mismatch sits, so
the comparison is not constant-time. -/
theorem goStringCmpSteps_position_dependent :
    goStringCmpSteps "GvWhmxFbNvZpGRO0RrWcBvMsDnI=" "XvWhmxFbNvZpGRO0RrWcBvMsDnI=" = 1
    ∧ goStringCmpSteps "GvWhmxFbNvZpGRO0RrWcBvMsDnI=" "GvWhmxFbNvZpGRO0RrWcBvMsDnX=" = 27
    ∧ ("XvWhmxFbNvZpGRO0RrWcBvMsDnI=" : String).length
        = ("GvWhmxFbNvZpGRO0RrWcBvMsDnX=" : String).length := by
  exact ⟨by decide, by decide, by decide⟩

/-- C1 amended: the signature comparison is a short-circuiting byte-wise
string equality; for equal-length operands its comparison cost equals the
common-prefix length plus one on a mismatch, hence it leaks the position
of the first mismatching byte rather than running in constant time. -/
theorem goStringCmpSteps_eq_commonPref (s t : String) (h : s.length = t.length) :
    goStringCmpSteps s t = commonPrefLen s.data t.data + (if s = t then 0 else 1) := by
  unfold goStringCmpSteps
  rw [if_pos h, scanSteps_eq_commonPref s.data t.data h]
  by_cases hst : s = t
  · rw [if_pos (by rw [hst]), if_pos hst]
  · rw [if_neg (fun hd => hst (String.ext hd)), if_neg hst]

/-- C1 amended witness: the cost equation evaluated at a concrete
equal-length pair. -/
theorem goStringCmpSteps_eq_commonPref_witness :
    ("ab" : String).length = ("ac" : String).length
    ∧ goStringCmpSteps "ab" "ac"
        = commonPrefLen "ab".data "ac".data + (if ("ab" : String) = "ac" then 0 else 1) :=
  ⟨by decide, goStringCmpSteps_eq_commonPref "ab" "ac" (by decide)⟩

/-- Character scan of `characterList` expressed through `List.find?`: the
result is exactly the source's error message for the first character
outside the allowed set, or success when there is none. -/
theorem characterListChars_eq_find (cl : List Char) : ∀ l : List Char,
    characterListChars cl l = (l.find? (fun c => decide (c ∉ cl))).map
      (fun c => "invalid: character '" ++ String.singleton c ++ "' is not allowed") := by
  intro l
  induction l with
  | nil => rfl
  | cons c rest ih =>
    by_cases hc : c ∈ cl
    · rw [List.find?_cons_of_neg _ (by simp [hc])]
      simp only [characterListChars, if_pos hc]
      exact ih
    · rw [List.find?_cons_of_pos _ (by simp [hc])]
      simp [characterListChars, hc]

/-- C9: on a non-empty value with the registered empty option parameter,
the Digits validator succeeds exactly when every character lies in
0123456789#*, and otherwise fails with the source's error message naming
the first disallowed character found scanning left to right. -/
theorem validateKeyPadEntry_whitelist (s : String) (h : s ≠ "") :
    (validateKeyPadEntry s "" = none ↔ ∀ c ∈ s.data, c ∈ ("0123456789#*" : String).data)
    ∧ validateKeyPadEntry s ""
        = (s.data.find? (fun c => decide (c ∉ ("0123456789#*" : String).data))).map
            (fun c => "invalid: character '" ++ String.singleton c ++ "' is not allowed") := by
  constructor
  · unfold validateKeyPadEntry validateNumericPoundStar characterList
    rw [if_neg h, characterListChars_eq_find, Option.map_eq_none', List.find?_eq_none]
    constructor
    · intro hall c hc
      have h2 := hall c hc
      simp at h2 ⊢
      tauto
    · intro hall c hc
      have h2 := hall c hc
      simp at h2 ⊢
      tauto
  · unfold validateKeyPadEntry validateNumericPoundStar characterList
    rw [if_neg h, characterListChars_eq_find]

/-- C9 witness: the validator rejects 12a3 naming the character a, and
(by the membership characterisation) accepts 123#*0. -/
theorem validateKeyPadEntry_whitelist_witness :
    (("12a3" : String) ≠ ""
     ∧ ((validateKeyPadEntry "12a3" "" = none ↔ ∀ c ∈ ("12a3" : String).data, c ∈ ("0123456789#*" : String).data)
        ∧ validateKeyPadEntry "12a3" ""
            = (("12a3" : String).data.find? (fun c => decide (c ∉ ("0123456789#*" : String).data))).map
                (fun c => "invalid: character '" ++ String.singleton c ++ "' is not allowed")))
    ∧ (validateKeyPadEntry "123#*0" "" = none ↔ ∀ c ∈ ("123#*0" : String).data, c ∈ ("0123456789#*" : String).data) :=
  ⟨⟨by decide, validateKeyPadEntry_whitelist "12a3" (by decide)⟩,
   (validateKeyPadEntry_whitelist "123#*0" (by decide)).1⟩

/-- Field loop outcomes are never the signature error: once the signature
gate has passed, the only errors `validatePost` can still produce are
field-validation errors. -/
theorem runFieldLoop_no_auth {PN : Type} (api : PhoneAPI PN) (urlP : String → Option GoURL)
    (form : List (String × List String)) :
    ∀ (names : List String) (acc : List (String × String)),
      isAuthFailure (runFieldLoop api urlP form names acc) = false := by
  intro names
  induction names with
  | nil => intro acc; rfl
  | cons p rest ih =>
    intro acc
    cases hfv : fieldValidators api urlP p with
    | none => simp [runFieldLoop, hfv, ih]
    | some cfg =>
      cases hc : cfg.valFunc (firstValue form p) cfg.valParam with
      | none => simp [runFieldLoop, hfv, hc, ih]
      | some cause => simp [runFieldLoop, hfv, hc, isAuthFailure]

/-- C6: on a POST request, `ValidatePost` reports an authentication
(signature) failure exactly when the `X-Twilio-Signature` header is not
the one-element list holding the computed digest — that is, when the
header is absent, appears more than once, or differs byte-for-byte from
the computed base64 HMAC digest of the canonical message; the signature
gate passes only when the header appears exactly once and matches. -/
theorem validatePost_signature_gate {PN : Type} (api : PhoneAPI PN)
    (urlP : String → Option GoURL) (mac : String → String → String)
    (host : String) (req : GoReq) (authToken : String)
    (hm : req.method = "POST") :
    isAuthFailure (validatePost api urlP mac host req authToken) = true
      ↔ req.sigHeader ≠ [mac authToken (canonicalMessage (host ++ req.urlStr) req.postForm)] := by
  simp only [validatePost, hm]
  rw [if_neg (not_not_intro rfl)]
  by_cases hc : req.sigHeader.length ≠ 1
      ∨ mac authToken (canonicalMessage (host ++ req.urlStr) req.postForm) ≠ req.sigHeader.headD ""
  · rw [if_pos hc]
    simp only [isAuthFailure, true_iff]
    intro he
    rw [he] at hc
    simp at hc
  · rw [if_neg hc, runFieldLoop_no_auth]
    push_neg at hc
    obtain ⟨h1, h2⟩ := hc
    simp only [Bool.false_eq_true, false_iff, ne_eq, not_not]
    cases hr : req.sigHeader with
    | nil => rw [hr] at h1; simp at h1
    | cons x t =>
      cases t with
      | nil =>
        rw [hr] at h2
        simp at h2
        rw [h2]
      | cons y t2 => rw [hr] at h1; simp at h1

/-- C6 witness: a lone mismatching header value is an authentication
failure on a concrete request. -/
theorem validatePost_signature_gate_witness :
    (GoReq.mk "POST" "/p" [("CallSid", ["x"])] ["garbage"]).method = "POST"
    ∧ (isAuthFailure (validatePost phoneModel urlParseModel macModel "https://h"
          (GoReq.mk "POST" "/p" [("CallSid", ["x"])] ["garbage"]) "tok") = true
        ↔ (GoReq.mk "POST" "/p" [("CallSid", ["x"])] ["garbage"]).sigHeader
            ≠ [macModel "tok" (canonicalMessage ("https://h" ++ (GoReq.mk "POST" "/p" [("CallSid", ["x"])] ["garbage"]).urlStr)
                (GoReq.mk "POST" "/p" [("CallSid", ["x"])] ["garbage"]).postForm)]) :=
  ⟨rfl, validatePost_signature_gate phoneModel urlParseModel macModel "https://h"
    (GoReq.mk "POST" "/p" [("CallSid", ["x"])] ["garbage"]) "tok" rfl⟩

/-- Behaviour of the field loop when the sorted names split as a passing
segment followed by a failing field: the loop stops at the failing field
and the accumulated `Values` map holds exactly the earlier fields. -/
theorem runFieldLoop_fail_spec {PN : Type} (api : PhoneAPI PN) (urlP : String → Option GoURL)
    (form : List (String × List String)) :
    ∀ (pre : List String) (f : String) (post : List String) (c : String)
      (acc : List (String × String)),
      (∀ p ∈ pre, fieldCheck api urlP form p = none) →
      fieldCheck api urlP form f = some c →
      runFieldLoop api urlP form (pre ++ f :: post) acc
        = (some (.fieldInvalid f (firstValue form f) c),
           acc ++ pre.map (fun p => (p, firstValue form p))) := by
  intro pre
  induction pre with
  | nil =>
    intro f post c acc _ hf
    unfold fieldCheck at hf
    cases hfv : fieldValidators api urlP f with
    | none => rw [hfv] at hf; exact absurd hf (by simp)
    | some cfg =>
      simp only [hfv] at hf
      simp [runFieldLoop, hfv, hf]
  | cons q pre ih =>
    intro f post c acc hpre hf
    have hq : fieldCheck api urlP form q = none := hpre q (List.mem_cons_self q pre)
    have hpre' : ∀ p ∈ pre, fieldCheck api urlP form p = none :=
      fun p hp => hpre p (List.mem_cons_of_mem _ hp)
    unfold fieldCheck at hq
    cases hfv : fieldValidators api urlP q with
    | none => simp [runFieldLoop, hfv, ih f post c _ hpre' hf]
    | some cfg =>
      simp only [hfv] at hq
      simp [runFieldLoop, hfv, hq, ih f post c _ hpre' hf]

/-- Shared shape of `validatePost` on a field-validation failure: when the
method and signature gates pass and the sorted names split as a passing
segment, a failing field, and a remainder, the pipeline returns the field
error together with the values of exactly the preceding fields. -/
theorem validatePost_fail_at_field {PN : Type} (api : PhoneAPI PN)
    (urlP : String → Option GoURL) (mac : String → String → String)
    (host : String) (req : GoReq) (authToken : String)
    (pre : List String) (f c : String) (post : List String)
    (hm : req.method = "POST")
    (hsig : req.sigHeader = [mac authToken (canonicalMessage (host ++ req.urlStr) req.postForm)])
    (hsort : sortParams (req.postForm.map Prod.fst) = pre ++ f :: post)
    (hpre : ∀ p ∈ pre, fieldCheck api urlP req.postForm p = none)
    (hf : fieldCheck api urlP req.postForm f = some c) :
    validatePost api urlP mac host req authToken
      = (some (.fieldInvalid f (firstValue req.postForm f) c),
         pre.map (fun p => (p, firstValue req.postForm p))) := by
  simp only [validatePost, hm]
  rw [if_neg (not_not_intro rfl)]
  rw [if_neg (by rw [hsig]; simp)]
  rw [hsort, runFieldLoop_fail_spec api urlP req.postForm pre f post c [] hpre hf]
  simp

/-- C2 amended: when the signature gate passes and a registered field
validator fails, `ValidatePost` returns the field error, but the final
contents of the caller-visible `Request.Values` map are exactly the fields
that preceded the failing field in sorted order — a partially populated
map observable together with the error. -/
theorem validatePost_values_on_field_failure {PN : Type} (api : PhoneAPI PN)
    (urlP : String → Option GoURL) (mac : String → String → String)
    (host : String) (req : GoReq) (authToken : String)
    (pre : List String) (f c : String) (post : List String)
    (hm : req.method = "POST")
    (hsig : req.sigHeader = [mac authToken (canonicalMessage (host ++ req.urlStr) req.postForm)])
    (hsort : sortParams (req.postForm.map Prod.fst) = pre ++ f :: post)
    (hpre : ∀ p ∈ pre, fieldCheck api urlP req.postForm p = none)
    (hf : fieldCheck api urlP req.postForm f = some c) :
    validatePost api urlP mac host req authToken
      = (some (.fieldInvalid f (firstValue req.postForm f) c),
         pre.map (fun p => (p, firstValue req.postForm p))) :=
  validatePost_fail_at_field api urlP mac host req authToken pre f c post
    hm hsig hsort hpre hf

/-- C2 counterexample: a concrete POST with a valid signature whose sorted
form is CallSid (unregistered, copied) then Digits (fails validation):
`ValidatePost` errors, yet the caller-visible `Values` map is non-empty,
holding the proper subset populated before the failure. -/
theorem validatePost_partial_values_cex :
    validatePost phoneModel urlParseModel macModel "https://h"
        (GoReq.mk "POST" "/p" [("CallSid", ["x"]), ("Digits", ["!"])]
          [macModel "tok" "https://h/pCallSidxDigits!"]) "tok"
      = (some (.fieldInvalid "Digits" "!" "invalid: character '!' is not allowed"),
         [("CallSid", "x")])
    ∧ ([("CallSid", "x")] : List (String × String)) ≠ [] := by
  exact ⟨by decide, by decide⟩

/-- C2 amended witness: the partial-population theorem applied to the
concrete request above. -/
theorem validatePost_values_on_field_failure_witness :
    validatePost phoneModel urlParseModel macModel "https://h"
        (GoReq.mk "POST" "/p" [("CallSid", ["x"]), ("Digits", ["!"])]
          [macModel "tok" "https://h/pCallSidxDigits!"]) "tok"
      = (some (.fieldInvalid "Digits"
           (firstValue [("CallSid", ["x"]), ("Digits", ["!"])] "Digits")
           "invalid: character '!' is not allowed"),
         (["CallSid"] : List String).map
           (fun p => (p, firstValue [("CallSid", ["x"]), ("Digits", ["!"])] p))) :=
  validatePost_values_on_field_failure phoneModel urlParseModel macModel "https://h"
    (GoReq.mk "POST" "/p" [("CallSid", ["x"]), ("Digits", ["!"])]
      [macModel "tok" "https://h/pCallSidxDigits!"]) "tok"
    ["CallSid"] "Digits" "invalid: character '!' is not allowed" []
    rfl (by decide) (by decide) (by decide) (by decide)

/-- C3 amended: on a POST whose signature header is not the one-element
list holding the computed digest, `ValidatePost` surfaces the signature
error carrying the computed digest and the header value, and the error
message renders both of them (the source formats them with
calculated Signature / failed to match X-Twilio-Signature). -/
theorem sigMismatch_error_includes_signatures {PN : Type} (api : PhoneAPI PN)
    (urlP : String → Option GoURL) (mac : String → String → String)
    (host : String) (req : GoReq) (authToken : String)
    (hm : req.method = "POST")
    (hne : req.sigHeader ≠ [mac authToken (canonicalMessage (host ++ req.urlStr) req.postForm)]) :
    (validatePost api urlP mac host req authToken).1
      = some (.sigMismatch (mac authToken (canonicalMessage (host ++ req.urlStr) req.postForm))
          (if req.sigHeader.length = 1 then req.sigHeader.headD "" else ""))
    ∧ ∀ sig got, renderVError (.sigMismatch sig got)
        = "twiml.Request.ValidatePost(): calculated Signature: " ++ sig
          ++ ", failed to match X-Twilio-Signature: " ++ got := by
  constructor
  · simp only [validatePost, hm]
    rw [if_neg (not_not_intro rfl)]
    have hc : req.sigHeader.length ≠ 1
        ∨ mac authToken (canonicalMessage (host ++ req.urlStr) req.postForm)
            ≠ req.sigHeader.headD "" := by
      cases hr : req.sigHeader with
      | nil => left; simp
      | cons x t =>
        cases t with
        | nil =>
          right
          intro he
          simp only [List.headD_cons] at he
          exact hne (by rw [hr, he])
        | cons y t2 => left; simp
    rw [if_pos hc]
  · intro sig got
    rfl

/-- C3 counterexample: on a concrete failing request the surfaced error
holds the computed digest and the header value, and its rendered message
contains both digests as substrings — contradicting the claim that
neither appears in the error context. -/
theorem sig_error_contains_digests :
    (validatePost phoneModel urlParseModel macModel "https://h"
        (GoReq.mk "POST" "/p" [("CallSid", ["x"])] ["garbage"]) "tok").1
      = some (.sigMismatch "MAC[tok|https://h/pCallSidx]" "garbage")
    ∧ strContainsB (renderVError (.sigMismatch "MAC[tok|https://h/pCallSidx]" "garbage"))
        "MAC[tok|https://h/pCallSidx]" = true
    ∧ strContainsB (renderVError (.sigMismatch "MAC[tok|https://h/pCallSidx]" "garbage"))
        "garbage" = true := by
  exact ⟨by decide, by decide, by decide⟩

/-- C3 amended witness: the amended theorem applied to the concrete
failing request. -/
theorem sigMismatch_error_includes_signatures_witness :
    (validatePost phoneModel urlParseModel macModel "https://h"
        (GoReq.mk "POST" "/p" [("CallSid", ["x"])] ["garbage"]) "tok").1
      = some (.sigMismatch
          (macModel "tok" (canonicalMessage ("https://h" ++ "/p") [("CallSid", ["x"])]))
          (if ((["garbage"] : List String)).length = 1 then (["garbage"] : List String).headD "" else ""))
    ∧ ∀ sig got, renderVError (.sigMismatch sig got)
        = "twiml.Request.ValidatePost(): calculated Signature: " ++ sig
          ++ ", failed to match X-Twilio-Signature: " ++ got :=
  sigMismatch_error_includes_signatures phoneModel urlParseModel macModel "https://h"
    (GoReq.mk "POST" "/p" [("CallSid", ["x"])] ["garbage"]) "tok" rfl (by decide)

/-- C10: the registry entries for From, To and Digits carry the zero-value
option parameter rather than allowempty, so a POST that passes signature
verification but carries one of these fields with an empty first value is
rejected with the Required error for that field (stated for requests
whose other registered fields validate, which pins the failing field). -/
theorem emptyRequiredFieldRejected {PN : Type} (api : PhoneAPI PN)
    (urlP : String → Option GoURL) (mac : String → String → String)
    (host : String) (req : GoReq) (authToken : String) (f : String)
    (hm : req.method = "POST")
    (hsig : req.sigHeader = [mac authToken (canonicalMessage (host ++ req.urlStr) req.postForm)])
    (hnd : (req.postForm.map Prod.fst).Nodup)
    (hmem : f ∈ req.postForm.map Prod.fst)
    (hf3 : f = "From" ∨ f = "To" ∨ f = "Digits")
    (hval : firstValue req.postForm f = "")
    (hothers : ∀ p ∈ req.postForm.map Prod.fst, p ≠ f →
      fieldCheck api urlP req.postForm p = none) :
    (validatePost api urlP mac host req authToken).1
      = some (.fieldInvalid f "" "Required") := by
  have hmem' : f ∈ sortParams (req.postForm.map Prod.fst) :=
    (sortParams_perm _).mem_iff.mpr hmem
  obtain ⟨pre, post, hsplit⟩ := List.append_of_mem hmem'
  have hnds : (sortParams (req.postForm.map Prod.fst)).Nodup :=
    (sortParams_perm _).symm.nodup hnd
  have hfpre : f ∉ pre := by
    rw [hsplit, List.nodup_append] at hnds
    exact fun hin => hnds.2.2 hin (List.mem_cons_self f post)
  have hpre : ∀ p ∈ pre, fieldCheck api urlP req.postForm p = none := by
    intro p hp
    have hpmem : p ∈ req.postForm.map Prod.fst :=
      (sortParams_perm _).mem_iff.mp (by rw [hsplit]; exact List.mem_append_left _ hp)
    exact hothers p hpmem (fun he => hfpre (he ▸ hp))
  have hfcheck : fieldCheck api urlP req.postForm f = some "Required" := by
    rcases hf3 with hf | hf | hf
    · subst hf
      have h1 : fieldCheck api urlP req.postForm "From"
          = validFromOrTo api urlP (firstValue req.postForm "From") "" := rfl
      rw [h1, hval]
      rfl
    · subst hf
      have h1 : fieldCheck api urlP req.postForm "To"
          = validFromOrTo api urlP (firstValue req.postForm "To") "" := rfl
      rw [h1, hval]
      rfl
    · subst hf
      have h1 : fieldCheck api urlP req.postForm "Digits"
          = validateKeyPadEntry (firstValue req.postForm "Digits") "" := rfl
      rw [h1, hval]
      rfl
  have hmain := validatePost_fail_at_field api urlP mac host req authToken
    pre f "Required" post hm hsig hsplit hpre hfcheck
  rw [hmain, hval]

/-- C10 witness: a signed POST carrying From with an empty value fails
with the Required field error. -/
theorem emptyRequiredFieldRejected_witness :
    (validatePost phoneModel urlParseModel macModel "https://h"
        (GoReq.mk "POST" "/p" [("From", [""])] [macModel "tok" "https://h/pFrom"]) "tok").1
      = some (.fieldInvalid "From" "" "Required") :=
  emptyRequiredFieldRejected phoneModel urlParseModel macModel "https://h"
    (GoReq.mk "POST" "/p" [("From", [""])] [macModel "tok" "https://h/pFrom"]) "tok" "From"
    rfl (by decide) (by decide) (by decide) (by decide) (by decide) (by decide)

/-- C7: `ParseNumber` is total (it returns a `ParsedNumber`, never an
error).  When the input is a valid phone number the result is valid with
the raw input preserved unreformatted and no routing-URI flag; when the
phone classification fails, the result is either the untouched invalid
record (normalizedNumber and raw both the original input) or a successful
routing classification; and the raw input is preserved in every case. -/
theorem ParseNumber_total_classification {PN : Type} (api : PhoneAPI PN)
    (urlP : String → Option GoURL) (v : String) :
    (validPhoneNumber api v "" = none →
        ParseNumber api urlP v = ⟨true, v, false, "", "", v⟩)
    ∧ (validPhoneNumber api v "" ≠ none →
        ParseNumber api urlP v = ⟨false, v, false, "", "", v⟩
          ∨ ((ParseNumber api urlP v).Valid = true ∧ (ParseNumber api urlP v).SIP = true))
    ∧ (ParseNumber api urlP v).Raw = v := by
  by_cases hp : validPhoneNumber api v "" = none
  · have h1 : ParseNumber api urlP v = ⟨true, v, false, "", "", v⟩ := by
      simp only [ParseNumber, if_pos hp]
    exact ⟨fun _ => h1, fun hne => absurd hp hne, by rw [h1]⟩
  · have key : ParseNumber api urlP v = ⟨false, v, false, "", "", v⟩
        ∨ ((ParseNumber api urlP v).Valid = true ∧ (ParseNumber api urlP v).SIP = true
            ∧ (ParseNumber api urlP v).Raw = v) := by
      simp only [ParseNumber, if_neg hp]
      cases hu : parseSIPURI urlP v with
      | none => left; rfl
      | some u =>
        dsimp only
        by_cases hg : (splitDots u.hostname).length < 5
            ∨ joinDots ((splitDots u.hostname).drop ((splitDots u.hostname).length - 2))
                ≠ "twilio.com"
            ∨ (splitDots u.hostname).getD ((splitDots u.hostname).length - 4) "" ≠ "sip"
        · rw [if_pos hg]
          left
          rfl
        · rw [if_neg hg]
          cases hf : FormatNumber api u.username with
          | none => left; rfl
          | some num => right; exact ⟨rfl, rfl, rfl⟩
    refine ⟨fun h => absurd h hp, fun _ => ?_, ?_⟩
    · rcases key with k | k
      · exact Or.inl k
      · exact Or.inr ⟨k.1, k.2.1⟩
    · rcases key with k | k
      · rw [k]
      · exact k.2.2

/-- C7 witness: a valid phone number is classified as valid with the raw
form preserved and no routing flag. -/
theorem ParseNumber_total_classification_witness :
    validPhoneNumber phoneModel "+18005642365" "" = none
    ∧ ParseNumber phoneModel urlParseModel "+18005642365"
        = ⟨true, "+18005642365", false, "", "", "+18005642365"⟩ :=
  ⟨by decide,
   (ParseNumber_total_classification phoneModel urlParseModel "+18005642365").1 (by decide)⟩

/-- C5: for an input that is not a phone number but parses as a SIP URI,
`ParseNumber` classifies it as a routing URI exactly when the host has at
least 5 dot-separated labels, the last two joined by a dot equal
twilio.com, the fourth-from-last label is the marker sip, and the
user-info part formats as a phone number; on full success it returns the
valid routing record with the E.164 user part, the labels before the
marker joined by dots as the SIP domain, the marker label sip as the
region, and the raw input preserved. -/
theorem ParseNumber_routing_classification {PN : Type} (api : PhoneAPI PN)
    (urlP : String → Option GoURL) (v : String) (u : GoURL)
    (hp : validPhoneNumber api v "" ≠ none)
    (hu : parseSIPURI urlP v = some u) :
    ((ParseNumber api urlP v).SIP = true ↔
      (5 ≤ (splitDots u.hostname).length
       ∧ joinDots ((splitDots u.hostname).drop ((splitDots u.hostname).length - 2))
           = "twilio.com"
       ∧ (splitDots u.hostname).getD ((splitDots u.hostname).length - 4) "" = "sip"
       ∧ (FormatNumber api u.username).isSome = true))
    ∧ ∀ num, 5 ≤ (splitDots u.hostname).length →
        joinDots ((splitDots u.hostname).drop ((splitDots u.hostname).length - 2))
          = "twilio.com" →
        (splitDots u.hostname).getD ((splitDots u.hostname).length - 4) "" = "sip" →
        FormatNumber api u.username = some num →
        ParseNumber api urlP v
          = ⟨true, num, true,
             joinDots ((splitDots u.hostname).take ((splitDots u.hostname).length - 4)),
             "sip", v⟩ := by
  have hp' : ¬ (validPhoneNumber api v "" = none) := hp
  constructor
  · simp only [ParseNumber, if_neg hp', hu]
    by_cases hg : (splitDots u.hostname).length < 5
        ∨ joinDots ((splitDots u.hostname).drop ((splitDots u.hostname).length - 2))
            ≠ "twilio.com"
        ∨ (splitDots u.hostname).getD ((splitDots u.hostname).length - 4) "" ≠ "sip"
    · rw [if_pos hg]
      constructor
      · intro habs
        simp at habs
      · rintro ⟨h5, hjd, hgd, _⟩
        rcases hg with h | h | h
        · omega
        · exact absurd hjd h
        · exact absurd hgd h
    · rw [if_neg hg]
      rw [not_or, not_or] at hg
      obtain ⟨h5, hjd, hgd⟩ := hg
      cases hf : FormatNumber api u.username with
      | none =>
        constructor
        · intro habs
          simp at habs
        · rintro ⟨_, _, _, hsome⟩
          simp at hsome
      | some num =>
        constructor
        · intro _
          exact ⟨Nat.not_lt.mp h5, not_not.mp hjd, not_not.mp hgd, rfl⟩
        · intro _
          rfl
  · intro num h5 hjd hgd hfmt
    simp only [ParseNumber, if_neg hp', hu]
    rw [if_neg (by
      rw [not_or, not_or]
      exact ⟨Nat.not_lt.mpr h5, not_not_intro hjd, not_not_intro hgd⟩)]
    rw [hfmt, hgd]

/-- C5 witness: the fixture sips:8005642365@domain.sip.us1.twilio.com:5061
is classified as a valid routing URI with normalized number +18005642365,
routing domain, and region sip. -/
theorem ParseNumber_routing_classification_witness :
    validPhoneNumber phoneModel "sips:8005642365@domain.sip.us1.twilio.com:5061" "" ≠ none
    ∧ parseSIPURI urlParseModel "sips:8005642365@domain.sip.us1.twilio.com:5061"
        = some (GoURL.mk "sips" "" "8005642365" "8005642365"
            "domain.sip.us1.twilio.com:5061" "domain.sip.us1.twilio.com" "")
    ∧ ParseNumber phoneModel urlParseModel "sips:8005642365@domain.sip.us1.twilio.com:5061"
        = ⟨true, "+18005642365", true, "domain", "sip",
           "sips:8005642365@domain.sip.us1.twilio.com:5061"⟩ :=
  ⟨by decide, by decide,
   (ParseNumber_routing_classification phoneModel urlParseModel
      "sips:8005642365@domain.sip.us1.twilio.com:5061"
      (GoURL.mk "sips" "" "8005642365" "8005642365"
        "domain.sip.us1.twilio.com:5061" "domain.sip.us1.twilio.com" "")
      (by decide) (by decide)).2
    "+18005642365" (by decide) (by decide) (by decide) (by decide)⟩

/-- C8: after lower-casing and the scheme-separator rewrite, `parseSIPURI`
rejects every string that does not begin with the scheme token sip (hence
neither sip nor sips), and, for inputs the general URI parser does parse,
rejects exactly when the missing-token condition holds or the parsed
scheme is not exactly sip or sips, or the path is non-empty, or the
opaque part is non-empty, or the host is empty, or the user-info is
empty. -/
theorem parseSIPURI_reject_conditions (urlP : String → Option GoURL) (uri : String) :
    (strStarts (strToLower uri) "sip" = false → parseSIPURI urlP uri = none)
    ∧ ∀ u, urlP (sipRewrite (strToLower uri)) = some u →
        (parseSIPURI urlP uri = none ↔
          (strStarts (strToLower uri) "sip" = false
           ∨ ¬(u.scheme = "sip" ∨ u.scheme = "sips")
           ∨ u.path ≠ "" ∨ u.opq ≠ "" ∨ u.host = "" ∨ u.userStr = "")) := by
  constructor
  · intro h
    simp [parseSIPURI, h]
  · intro u hu
    simp only [parseSIPURI]
    by_cases hs : strStarts (strToLower uri) "sip" = true
    · simp only [hs, if_true, hu]
      by_cases h1 : u.scheme ≠ "sip" ∧ u.scheme ≠ "sips"
      · rw [if_pos h1]
        constructor
        · intro _
          exact Or.inr (Or.inl (not_or.mpr h1))
        · intro _
          rfl
      · rw [if_neg h1]
        have hsch : u.scheme = "sip" ∨ u.scheme = "sips" := by
          rcases not_and_or.mp h1 with h | h
          · exact Or.inl (not_not.mp h)
          · exact Or.inr (not_not.mp h)
        by_cases h2 : u.path ≠ "" ∨ u.opq ≠ ""
        · rw [if_pos h2]
          constructor
          · intro _
            rcases h2 with h | h
            · exact Or.inr (Or.inr (Or.inl h))
            · exact Or.inr (Or.inr (Or.inr (Or.inl h)))
          · intro _
            rfl
        · rw [if_neg h2]
          by_cases h3 : u.host = "" ∨ u.userStr = ""
          · rw [if_pos h3]
            constructor
            · intro _
              rcases h3 with h | h
              · exact Or.inr (Or.inr (Or.inr (Or.inr (Or.inl h))))
              · exact Or.inr (Or.inr (Or.inr (Or.inr (Or.inr h))))
            · intro _
              rfl
          · rw [if_neg h3]
            have hno2 := not_or.mp h2
            have hno3 := not_or.mp h3
            constructor
            · intro habs
              exact absurd habs (by simp)
            · intro hcon
              rcases hcon with h | h | h | h | h | h
              · simp at h
              · exact absurd hsch h
              · exact absurd h hno2.1
              · exact absurd h hno2.2
              · exact absurd h hno3.1
              · exact absurd h hno3.2
    · have hs' : strStarts (strToLower uri) "sip" = false := by
        simpa using hs
      simp [hs']

/-- C8 witness: the claim's example, an https URI, is rejected because it
does not begin with the calling-protocol scheme token. -/
theorem parseSIPURI_reject_conditions_witness :
    strStarts (strToLower "https://user@host:5061") "sip" = false
    ∧ parseSIPURI urlParseModel "https://user@host:5061" = none :=
  ⟨by decide,
   (parseSIPURI_reject_conditions urlParseModel "https://user@host:5061").1 (by decide)⟩

end Twiml
